import Mathlib

/-
  Shallow embedding of the toy payment ledger (src/accounts.rs, src/csv_reader.rs).

  The Rust program stores per-client accounts with f64 fields `available`,
  `held`, `total` and a `locked` flag, plus a history map from transaction id
  to the stored Deposit/Withdrawal record augmented with an `under_dispute`
  flag.  `Accounts::handle_transaction` mutates this state and returns a
  `Result<(), TransactionError>`.

  f64 is modelled by `FP`: finite values are exact rationals, plus the two
  signed infinities and NaN with IEEE special-value rules for addition,
  subtraction and comparison (NaN compares false to everything, including
  itself).  Rounding of finite sums is NOT modelled: `FP.add`/`FP.sub` on two
  finite values are exact where binary64 rounds to 53 significant bits, so
  the model over-approximates equalities between finite sums.  The theorems
  below therefore never rely on a finite sum being exact: the C1 invariant
  proof uses only facts that also hold of real binary64 (applying one
  operation to equal values yields equal values, x + 0.0 = x, and the
  special-value rules), and the other claims either concern control flow and
  comparisons or state their post-conditions in the program's own
  operations.  Special-value behaviour (inf - inf = NaN, NaN propagation and
  NaN comparisons) is captured exactly.
-/

namespace ToyPayment

/-- Model of Rust f64: NaN, signed infinity (true = positive), or a finite
value represented as an exact rational. -/
inductive FP where
  | nan : FP
  | inf : Bool → FP
  | fin : ℚ → FP
  deriving DecidableEq, Repr

/-- IEEE negation. -/
def FP.neg : FP → FP
  | .nan => .nan
  | .inf s => .inf (!s)
  | .fin q => .fin (-q)

/-- IEEE addition on special values; finite + finite is exact rational
addition (binary64 rounding is not modelled — proofs below do not depend on
exactness of finite sums). -/
def FP.add : FP → FP → FP
  | .nan, _ => .nan
  | _, .nan => .nan
  | .inf s, .inf t => if s = t then .inf s else .nan
  | .inf s, .fin _ => .inf s
  | .fin _, .inf t => .inf t
  | .fin a, .fin b => .fin (a + b)

/-- IEEE subtraction, `a - b = a + (-b)` as in the hardware; finite
subtraction inherits the exact (unrounded) finite addition of `FP.add`. -/
def FP.sub (a b : FP) : FP := a.add b.neg

/-- Rust f64 `==` (PartialEq): NaN is not equal to anything, itself included. -/
def FP.beq : FP → FP → Bool
  | .nan, _ => false
  | _, .nan => false
  | .inf s, .inf t => s == t
  | .inf _, .fin _ => false
  | .fin _, .inf _ => false
  | .fin a, .fin b => a == b

/-- Rust f64 `>` : false whenever either side is NaN. -/
def FP.bgt : FP → FP → Bool
  | .nan, _ => false
  | _, .nan => false
  | .inf s, .inf t => s && !t
  | .inf s, .fin _ => s
  | .fin _, .inf t => !t
  | .fin a, .fin b => decide (b < a)

/-- True exactly on finite values. -/
def FP.isFinite : FP → Bool
  | .fin _ => true
  | _ => false

/-- The five transaction kinds of csv_reader.rs. -/
inductive TransactionKind where
  | Deposit
  | Withdrawal
  | Dispute
  | Resolve
  | Chargeback
  deriving DecidableEq, Repr

/-- The Transaction record of csv_reader.rs: kind, client id (u16 range),
transaction id (u32 range), optional amount, and the `under_dispute` flag
(always false on freshly parsed records, mutable once stored in history). -/
structure Transaction where
  kind : TransactionKind
  client : Nat
  tx : Nat
  amount : Option FP
  under_dispute : Bool
  deriving DecidableEq, Repr

/-- The Account struct of accounts.rs, zero-initialised by `Account::new`. -/
structure Account where
  available : FP
  held : FP
  total : FP
  locked : Bool
  deriving DecidableEq, Repr

/-- `Account::new()`. -/
def Account.new : Account :=
  { available := FP.fin 0, held := FP.fin 0, total := FP.fin 0, locked := false }

/-- The TransactionError enum of accounts.rs.  (Spec names: InvalidTransaction
is the duplicate-transaction kind, AccountAmountTooLarge the overflow kind,
TxNonDisputed the not-disputed kind.) -/
inductive TransactionError where
  | UnknownClient : Nat → TransactionError
  | UnknownTransaction : Nat → TransactionError
  | InvalidAmount : FP → TransactionError
  | AccountAmountTooLarge : TransactionError
  | TxNonDisputed : Nat → TransactionError
  | AccountLocked : Nat → TransactionError
  | InvalidTransaction : Nat → TransactionError
  deriving DecidableEq, Repr

/-- Association-list map, observationally equivalent to the Rust HashMaps
(first binding for a key wins; the program never creates duplicate keys). -/
def lookupKey {β : Type} (k : Nat) : List (Nat × β) → Option β
  | [] => none
  | (k₁, v) :: rest => if k₁ = k then some v else lookupKey k rest

/-- HashMap::contains_key. -/
def containsKey {β : Type} (k : Nat) (m : List (Nat × β)) : Bool :=
  (lookupKey k m).isSome

/-- HashMap::insert / in-place mutation through get_mut: replaces the binding
of `k` when present, appends it otherwise. -/
def setKey {β : Type} (k : Nat) (v : β) : List (Nat × β) → List (Nat × β)
  | [] => [(k, v)]
  | (k₁, v₁) :: rest => if k₁ = k then (k₁, v) :: rest else (k₁, v₁) :: setKey k v rest

/-- The Accounts aggregate of accounts.rs: `inner` maps client id to Account,
`tx` maps transaction id to the stored Transaction. -/
structure Accounts where
  inner : List (Nat × Account)
  tx : List (Nat × Transaction)
  deriving DecidableEq, Repr

/-- `Accounts::new()`. -/
def Accounts.new : Accounts := { inner := [], tx := [] }

/-- The `entry(client).or_insert_with(Account::new)` step at the top of
`handle_transaction`. -/
def addClient (s : Accounts) (c : Nat) : Accounts :=
  if containsKey c s.inner then s
  else { s with inner := setKey c Account.new s.inner }

/-- `get_amount` of accounts.rs: a present amount must be strictly greater
than 0.0 under IEEE comparison, an absent amount reads as 0.0. -/
def get_amount (t : Transaction) : Except TransactionError FP :=
  match t.amount with
  | some a => if FP.bgt a (FP.fin 0) then Except.ok a else Except.error (TransactionError.InvalidAmount a)
  | none => Except.ok (FP.fin 0)

/-- `Accounts::handle_transaction`.  Rust mutates `self` in place and returns
`Result<(), TransactionError>`; here the mutated state is returned together
with the optional error (state changes made before an error point are kept,
exactly as in the source). -/
def handle_transaction (s₀ : Accounts) (t : Transaction) : Accounts × Option TransactionError :=
  let s := addClient s₀ t.client
  match get_amount t with
  | Except.error e => (s, some e)
  | Except.ok amount =>
    match t.kind with
    | TransactionKind.Deposit =>
      if containsKey t.tx s.tx then (s, some (TransactionError.InvalidTransaction t.tx))
      else
        match lookupKey t.client s.inner with
        | none => (s, some (TransactionError.UnknownClient t.client))
        | some account =>
          if account.locked then (s, some (TransactionError.AccountLocked t.client))
          else
            let account₁ := { account with
              available := account.available.add amount,
              total := account.total.add amount }
            let s₁ := { s with inner := setKey t.client account₁ s.inner }
            if (FP.beq account₁.available account.available
                  || FP.beq account₁.total account.total)
                && !(FP.beq amount (FP.fin 0)) then
              (s₁, some TransactionError.AccountAmountTooLarge)
            else
              ({ s₁ with tx := setKey t.tx t s₁.tx }, none)
    | TransactionKind.Withdrawal =>
      if containsKey t.tx s.tx then (s, some (TransactionError.InvalidTransaction t.tx))
      else
        match lookupKey t.client s.inner with
        | none => (s, some (TransactionError.UnknownClient t.client))
        | some account =>
          if account.locked then (s, some (TransactionError.AccountLocked t.client))
          else if FP.bgt amount account.available then
            (s, some (TransactionError.InvalidAmount amount))
          else
            let account₁ := { account with
              available := account.available.sub amount,
              total := account.total.sub amount }
            let s₁ := { s with inner := setKey t.client account₁ s.inner }
            ({ s₁ with tx := setKey t.tx t s₁.tx }, none)
    | TransactionKind.Dispute =>
      match lookupKey t.tx s.tx with
      | none => (s, some (TransactionError.UnknownTransaction t.tx))
      | some matching =>
        match get_amount matching with
        | Except.error e => (s, some e)
        | Except.ok a =>
          match lookupKey t.client s.inner with
          | none => (s, some (TransactionError.UnknownClient t.client))
          | some account =>
            let account₁ := { account with
              available := account.available.sub a,
              held := account.held.add a }
            let s₁ := { s with inner := setKey t.client account₁ s.inner }
            match lookupKey t.tx s₁.tx with
            | none => (s₁, some (TransactionError.UnknownTransaction t.tx))
            | some matching₁ =>
              ({ s₁ with tx := setKey t.tx { matching₁ with under_dispute := true } s₁.tx }, none)
    | TransactionKind.Resolve =>
      match lookupKey t.tx s.tx with
      | none => (s, some (TransactionError.UnknownTransaction t.tx))
      | some matching =>
        if !matching.under_dispute then (s, some (TransactionError.TxNonDisputed t.tx))
        else
          match get_amount matching with
          | Except.error e => (s, some e)
          | Except.ok a =>
            match lookupKey t.client s.inner with
            | none => (s, some (TransactionError.UnknownClient t.client))
            | some account =>
              let account₁ := { account with
                held := account.held.sub a,
                available := account.available.add a }
              ({ s with inner := setKey t.client account₁ s.inner }, none)
    | TransactionKind.Chargeback =>
      match lookupKey t.tx s.tx with
      | none => (s, some (TransactionError.UnknownTransaction t.tx))
      | some matching =>
        if !matching.under_dispute then (s, some (TransactionError.TxNonDisputed t.tx))
        else
          match get_amount matching with
          | Except.error e => (s, some e)
          | Except.ok a =>
            match lookupKey t.client s.inner with
            | none => (s, some (TransactionError.UnknownClient t.client))
            | some account =>
              let account₁ := { account with
                held := account.held.sub a,
                total := account.total.sub a,
                locked := true }
              ({ s with inner := setKey t.client account₁ s.inner }, none)

/-- Apply a list of transactions in order, threading the state through every
call (the state a failing call leaves behind is kept, as with `&mut self`). -/
def processAll (s : Accounts) : List Transaction → Accounts
  | [] => s
  | t :: rest => processAll (handle_transaction s t).1 rest

/-- Shape of an account that has only ever seen Deposits and Withdrawals:
available and total are the same value (both are the result of the identical
chain of operations applied to the same initial 0.0), held is still the
initial 0.0, and total is not NaN.  Each conjunct is preserved in real
binary64 exactly as in this model. -/
def dwOnlyAccount (a : Account) : Prop :=
  a.available = a.total ∧ a.held = FP.fin 0 ∧ a.total ≠ FP.nan

/-- Every account in the client map has the deposit/withdrawal-only shape. -/
def goodInnerDW (m : List (Nat × Account)) : Prop :=
  ∀ c a, lookupKey c m = some a → dwOnlyAccount a

/-- A transaction record whose amount field, when present, is finite. -/
def finiteAmount (t : Transaction) : Prop :=
  ∀ x, t.amount = some x → x.isFinite = true

/-- Deposit(client 1, tx 1, amount 25.11). -/
def dep25 : Transaction := ⟨TransactionKind.Deposit, 1, 1, some (FP.fin (2511/100)), false⟩

/-- Deposit(client 1, tx 2, amount 25.11). -/
def dep25b : Transaction := ⟨TransactionKind.Deposit, 1, 2, some (FP.fin (2511/100)), false⟩

/-- Deposit(client 1, tx 1, amount 10). -/
def dep10 : Transaction := ⟨TransactionKind.Deposit, 1, 1, some (FP.fin 10), false⟩

/-- Deposit(client 1, tx 1, amount +infinity). -/
def depInf : Transaction := ⟨TransactionKind.Deposit, 1, 1, some (FP.inf true), false⟩

/-- Deposit(client 1, tx 1, no amount field). -/
def depNone : Transaction := ⟨TransactionKind.Deposit, 1, 1, none, false⟩

/-- Withdrawal(client 1, tx 2, amount 42). -/
def wd42 : Transaction := ⟨TransactionKind.Withdrawal, 1, 2, some (FP.fin 42), false⟩

/-- Deposit(client 2, tx 1, amount -5): reuses tx 1 with an invalid amount. -/
def depDupNeg : Transaction := ⟨TransactionKind.Deposit, 2, 1, some (FP.fin (-5)), false⟩

/-- The stored history entry of dep10 once it has been disputed. -/
def dep10d : Transaction := ⟨TransactionKind.Deposit, 1, 1, some (FP.fin 10), true⟩

/-- Dispute(client 1, tx 1). -/
def disp1 : Transaction := ⟨TransactionKind.Dispute, 1, 1, none, false⟩

/-- Resolve(client 1, tx 1). -/
def res1 : Transaction := ⟨TransactionKind.Resolve, 1, 1, none, false⟩

/-- Chargeback(client 1, tx 1). -/
def cb1 : Transaction := ⟨TransactionKind.Chargeback, 1, 1, none, false⟩

/-- Dispute(client 2, tx 1): references tx 1 from a different client. -/
def disp2 : Transaction := ⟨TransactionKind.Dispute, 2, 1, none, false⟩

lemma lookupKey_setKey {β : Type} (k k₁ : Nat) (v : β) (m : List (Nat × β)) :
    lookupKey k₁ (setKey k v m) = if k₁ = k then some v else lookupKey k₁ m := by
  induction m with
  | nil =>
    by_cases h : k₁ = k
    · simp [setKey, lookupKey, h]
    · simp [setKey, lookupKey, h, Ne.symm h]
  | cons hd tl ih =>
    obtain ⟨k₂, v₂⟩ := hd
    by_cases h2 : k₂ = k
    · subst h2
      by_cases h1 : k₂ = k₁
      · subst h1
        simp [setKey, lookupKey]
      · simp [setKey, lookupKey, h1, Ne.symm h1]
    · by_cases h1 : k₂ = k₁
      · subst h1
        simp [setKey, lookupKey, h2]
      · simp [setKey, lookupKey, h1, h2, ih]

lemma contains_of_lookup {β : Type} {k : Nat} {m : List (Nat × β)} {v : β}
    (h : lookupKey k m = some v) : containsKey k m = true := by
  simp [containsKey, h]

lemma addClient_of_contains {s : Accounts} {c : Nat}
    (h : containsKey c s.inner = true) : addClient s c = s := by
  simp [addClient, h]

lemma addClient_of_lookup {s : Accounts} {c : Nat} {a : Account}
    (h : lookupKey c s.inner = some a) : addClient s c = s :=
  addClient_of_contains (contains_of_lookup h)

lemma addClient_tx (s : Accounts) (c : Nat) : (addClient s c).tx = s.tx := by
  unfold addClient
  split <;> rfl

lemma lookup_addClient_ne (s : Accounts) (c c₁ : Nat) (h : c₁ ≠ c) :
    lookupKey c₁ (addClient s c).inner = lookupKey c₁ s.inner := by
  unfold addClient
  split
  · rfl
  · simp [lookupKey_setKey, h]

lemma lookup_addClient_self (s : Accounts) (c : Nat) :
    lookupKey c (addClient s c).inner = some ((lookupKey c s.inner).getD Account.new) := by
  unfold addClient containsKey
  cases h : lookupKey c s.inner <;> simp [h, lookupKey_setKey]

lemma get_amount_finite {t : Transaction} (hf : finiteAmount t) {a : FP}
    (h : get_amount t = Except.ok a) : ∃ q, a = FP.fin q := by
  unfold get_amount at h
  cases ht : t.amount with
  | none =>
    rw [ht] at h
    simp at h
    exact ⟨0, h.symm⟩
  | some x =>
    rw [ht] at h
    have hx := hf x ht
    cases x with
    | nan => simp [FP.isFinite] at hx
    | inf s => simp [FP.isFinite] at hx
    | fin q =>
      by_cases hgt : FP.bgt (FP.fin q) (FP.fin 0) = true
      · simp [hgt] at h
        exact ⟨q, h.symm⟩
      · simp [Bool.not_eq_true] at hgt
        simp [hgt] at h

/-- If a value is not NaN, adding finite zero to it gives a value the
program's f64 equality accepts as equal: x + 0.0 = x holds in binary64 for
every non-NaN x the ledger can produce (negative zero never arises: amounts
are positive and the model carries a single zero). -/
lemma FP.beq_add_zero_self {x : FP} (h : x ≠ FP.nan) :
    FP.beq x (x.add (FP.fin 0)) = true := by
  cases x with
  | nan => exact absurd rfl h
  | inf s => simp [FP.add, FP.beq]
  | fin q => simp [FP.add, FP.beq]

/-- Adding a finite value to a non-NaN value never yields NaN (true of
binary64 as well: NaN only arises from opposite infinities here). -/
lemma FP.add_fin_ne_nan {x : FP} (h : x ≠ FP.nan) (q : ℚ) :
    x.add (FP.fin q) ≠ FP.nan := by
  cases x with
  | nan => exact absurd rfl h
  | inf s => simp [FP.add]
  | fin p => simp [FP.add]

lemma goodInnerDW_setKey {m : List (Nat × Account)} {c : Nat} {acc : Account}
    (hg : goodInnerDW m) (ha : dwOnlyAccount acc) : goodInnerDW (setKey c acc m) := by
  intro c₁ a₁ h₁
  rw [lookupKey_setKey] at h₁
  by_cases hc : c₁ = c
  · simp [hc] at h₁
    exact h₁ ▸ ha
  · simp [hc] at h₁
    exact hg c₁ a₁ h₁

lemma goodInnerDW_addClient {s : Accounts} (hg : goodInnerDW s.inner) (c : Nat) :
    goodInnerDW (addClient s c).inner := by
  unfold addClient
  split
  · exact hg
  · exact goodInnerDW_setKey hg ⟨rfl, rfl, by simp [Account.new]⟩

/-- One handle_transaction call on a Deposit or Withdrawal with a finite
amount keeps every account in the deposit/withdrawal-only shape, whether or
not the call succeeds.  The proof never evaluates an addition: available and
total receive the same operation with the same argument (congruence), held
is untouched, and not-NaN is preserved by FP.add_fin_ne_nan — all three
arguments transfer verbatim to real binary64 arithmetic. -/
lemma handle_preserves_dw (s : Accounts) (t : Transaction)
    (hg : goodInnerDW s.inner) (hf : finiteAmount t)
    (hk : t.kind = TransactionKind.Deposit ∨ t.kind = TransactionKind.Withdrawal) :
    goodInnerDW (handle_transaction s t).1.inner := by
  have hg1 : goodInnerDW (addClient s t.client).inner := goodInnerDW_addClient hg t.client
  unfold handle_transaction
  cases hga : get_amount t with
  | error e => exact hg1
  | ok amount =>
    obtain ⟨q, hq⟩ := get_amount_finite hf hga
    subst hq
    cases hkind : t.kind
    all_goals simp only []
    case Deposit =>
      split
      · exact hg1
      · split
        · exact hg1
        · rename_i account hacc
          split
          · exact hg1
          · obtain ⟨he, hh, hn⟩ := hg1 _ _ hacc
            have hnew : dwOnlyAccount { account with
                available := account.available.add (FP.fin q),
                total := account.total.add (FP.fin q) } :=
              ⟨by rw [he], hh, FP.add_fin_ne_nan hn q⟩
            split
            · exact goodInnerDW_setKey hg1 hnew
            · exact goodInnerDW_setKey hg1 hnew
    case Withdrawal =>
      split
      · exact hg1
      · split
        · exact hg1
        · rename_i account hacc
          split
          · exact hg1
          · split
            · exact hg1
            · obtain ⟨he, hh, hn⟩ := hg1 _ _ hacc
              refine goodInnerDW_setKey hg1 ⟨by rw [he], hh, ?_⟩
              simpa [FP.sub, FP.neg] using FP.add_fin_ne_nan hn (-q)
    all_goals rcases hk with h | h <;> (rw [hkind] at h; exact absurd h (by simp))

/-- Processing any list of finite-amount Deposits and Withdrawals keeps every
account in the deposit/withdrawal-only shape. -/
lemma processAll_dw (ts : List Transaction) (s : Accounts)
    (hg : goodInnerDW s.inner)
    (hf : ∀ t ∈ ts, finiteAmount t)
    (hk : ∀ t ∈ ts, t.kind = TransactionKind.Deposit ∨ t.kind = TransactionKind.Withdrawal) :
    goodInnerDW (processAll s ts).inner := by
  induction ts generalizing s with
  | nil => exact hg
  | cons t rest ih =>
    exact ih (handle_transaction s t).1
      (handle_preserves_dw s t hg (hf t (by simp)) (hk t (by simp)))
      (fun t₁ ht₁ => hf t₁ (by simp [ht₁])) (fun t₁ ht₁ => hk t₁ (by simp [ht₁]))

/-- C1 (amended): for every sequence consisting only of Deposits and
Withdrawals whose amount fields are all finite, applied via
handle_transaction from the empty ledger, every account satisfies
total == available + held under the program's f64 equality after every
operation — in particular after every successful one.  In such runs held
stays 0.0 and available and total are produced by the identical chain of
operations, so the proof relies only on facts that also hold of real
binary64 arithmetic, never on the model's exact finite addition.  Beyond
this fragment the invariant does not survive the code's arithmetic: with a
non-finite amount it fails outright (see the counterexample: Deposit(+inf)
then Dispute leaves available = NaN), and once a Dispute has made held
non-zero, binary64 rounding breaks it even for all-finite inputs —
Deposit(1e16), Deposit(2), Dispute(tx 2), Withdrawal(1) all succeed in
binary64 yet end with total = 1e16 while available + held = 1e16 + 2.  That
rounding run lies outside this exact-rational model, which is why the
amended claim is restricted to dispute-free sequences rather than proved
false here. -/
theorem C1_total_eq_available_plus_held (ts : List Transaction)
    (hf : ∀ t ∈ ts, finiteAmount t)
    (hdw : ∀ t ∈ ts, t.kind = TransactionKind.Deposit ∨ t.kind = TransactionKind.Withdrawal)
    (c : Nat) (acc : Account)
    (hl : lookupKey c (processAll Accounts.new ts).inner = some acc) :
    FP.beq acc.total (acc.available.add acc.held) = true := by
  have hg : goodInnerDW (Accounts.new).inner := by
    intro c₁ a₁ h₁
    simp [Accounts.new, lookupKey] at h₁
  obtain ⟨he, hh, hn⟩ := processAll_dw ts Accounts.new hg hf hdw c acc hl
  rw [he, hh]
  exact FP.beq_add_zero_self hn

/-- Witness for C1: after the single deposit of 10 to client 1, the account
(available 10, held 0, total 10) satisfies the invariant. -/
theorem C1_total_eq_available_plus_held_witness :
    FP.beq (FP.fin 10) ((FP.fin 10).add (FP.fin 0)) = true := by
  refine C1_total_eq_available_plus_held [dep10] ?_ ?_ 1
    ⟨FP.fin 10, FP.fin 0, FP.fin 10, false⟩ ?_
  · intro t ht x hx
    simp at ht
    subst ht
    simp [dep10] at hx
    subst hx
    rfl
  · intro t ht
    simp at ht
    subst ht
    exact Or.inl rfl
  · norm_num [processAll, handle_transaction, addClient, containsKey, lookupKey, setKey,
      get_amount, FP.bgt, FP.beq, FP.add, Account.new, Accounts.new, dep10]

/-- C1 counterexample: Deposit(1, 1, +inf) succeeds, the following
Dispute(1, 1) succeeds, and afterwards total == available + held is false for
client 1 (available = inf - inf = NaN). -/
theorem C1_counterexample :
    (handle_transaction Accounts.new depInf).2 = none ∧
    (handle_transaction (handle_transaction Accounts.new depInf).1 disp1).2 = none ∧
    (lookupKey 1 (handle_transaction (handle_transaction Accounts.new depInf).1 disp1).1.inner).map
      (fun a => FP.beq a.total (a.available.add a.held)) = some false := by
  norm_num [handle_transaction, addClient, containsKey, lookupKey, setKey, get_amount,
    FP.bgt, FP.beq, FP.add, FP.sub, FP.neg, Account.new, Accounts.new, depInf, disp1]

/-- C2 (amended): a Deposit whose amount field is present but not strictly
greater than 0.0 under IEEE comparison (zero, negative, or NaN) fails with
InvalidAmount and leaves every account field, the lock and the history
unchanged — only the lazy zero-account creation happens.  (As frozen the
claim also demanded rejection of missing and infinite amounts; both in fact
succeed, see the counterexample.) -/
theorem C2_invalid_amount_deposit (s : Accounts) (t : Transaction) (a : FP)
    (hk : t.kind = TransactionKind.Deposit) (ha : t.amount = some a)
    (hpos : FP.bgt a (FP.fin 0) = false) :
    handle_transaction s t = (addClient s t.client, some (TransactionError.InvalidAmount a)) := by
  unfold handle_transaction
  simp [get_amount, ha, hpos, hk]

/-- Witness for C2: Deposit(1, 1, -5) from the empty ledger yields
InvalidAmount (-5) and only the fresh zero account. -/
theorem C2_invalid_amount_deposit_witness :
    handle_transaction Accounts.new ⟨TransactionKind.Deposit, 1, 1, some (FP.fin (-5)), false⟩
      = (addClient Accounts.new 1, some (TransactionError.InvalidAmount (FP.fin (-5)))) := by
  exact C2_invalid_amount_deposit Accounts.new _ (FP.fin (-5)) rfl rfl (by norm_num [FP.bgt])

/-- C2 counterexample: a Deposit with a missing amount is accepted (absent
amounts read as 0.0) and stores a history entry, and a Deposit of +infinity
is accepted as well — the frozen claim requires both to fail with
InvalidAmount. -/
theorem C2_counterexample :
    (handle_transaction Accounts.new depNone).2 = none ∧
    lookupKey 1 (handle_transaction Accounts.new depNone).1.tx = some depNone ∧
    (handle_transaction Accounts.new depInf).2 = none := by
  norm_num [handle_transaction, addClient, containsKey, lookupKey, setKey, get_amount,
    FP.bgt, FP.beq, FP.add, Account.new, Accounts.new, depNone, depInf]

/-- C3 (amended): a Withdrawal with amount > available (all prior checks
passing) fails with the InvalidAmount error kind and leaves the state
unchanged; the code has no separate InsufficientFunds kind — it reuses
TransactionError::InvalidAmount. -/
theorem C3_insufficient_funds_kind (s : Accounts) (t : Transaction) (a : FP) (acc : Account)
    (hk : t.kind = TransactionKind.Withdrawal) (hga : get_amount t = Except.ok a)
    (hdup : containsKey t.tx s.tx = false)
    (hacc : lookupKey t.client s.inner = some acc)
    (hlock : acc.locked = false)
    (hgt : FP.bgt a acc.available = true) :
    handle_transaction s t = (s, some (TransactionError.InvalidAmount a)) := by
  have hs : addClient s t.client = s := addClient_of_lookup hacc
  unfold handle_transaction
  rw [hs, hga, hk]
  simp [hdup, hacc, hlock, hgt]

/-- Witness for C3: withdrawing 42 with only 10 available fails with
InvalidAmount 42 and the state is unchanged. -/
theorem C3_insufficient_funds_kind_witness :
    handle_transaction ⟨[(1, ⟨FP.fin 10, FP.fin 0, FP.fin 10, false⟩)], [(1, dep10)]⟩ wd42
      = (⟨[(1, ⟨FP.fin 10, FP.fin 0, FP.fin 10, false⟩)], [(1, dep10)]⟩,
          some (TransactionError.InvalidAmount (FP.fin 42))) := by
  refine C3_insufficient_funds_kind _ wd42 (FP.fin 42) ⟨FP.fin 10, FP.fin 0, FP.fin 10, false⟩
    rfl ?_ ?_ ?_ rfl ?_
  · norm_num [get_amount, wd42, FP.bgt]
  · norm_num [containsKey, lookupKey, wd42]
  · norm_num [lookupKey, wd42]
  · norm_num [FP.bgt, wd42]

/-- C3 counterexample: after Deposit(1, 1, 10) the Withdrawal(1, 2, 42) fails
with TransactionError.InvalidAmount 42, the very same kind used for invalid
amounts — there is no distinct InsufficientFunds kind in the code. -/
theorem C3_counterexample :
    handle_transaction (handle_transaction Accounts.new dep10).1 wd42
      = ((handle_transaction Accounts.new dep10).1,
          some (TransactionError.InvalidAmount (FP.fin 42))) := by
  norm_num [handle_transaction, addClient, containsKey, lookupKey, setKey, get_amount,
    FP.bgt, FP.beq, FP.add, Account.new, Accounts.new, dep10, wd42]

/-- C4 (amended): a Deposit or Withdrawal whose tx is already in history never
stores or overwrites anything, regardless of client and amount; it is rejected
with the duplicate-transaction kind (InvalidTransaction) provided its amount
field validates — when the amount is invalid, the amount check fires first and
the error is InvalidAmount instead (see counterexample). -/
theorem C4_duplicate_tx_rejected (s : Accounts) (t : Transaction)
    (hk : t.kind = TransactionKind.Deposit ∨ t.kind = TransactionKind.Withdrawal)
    (hdup : containsKey t.tx s.tx = true) :
    (handle_transaction s t).1.tx = s.tx ∧
    ∀ a, get_amount t = Except.ok a →
      handle_transaction s t = (addClient s t.client, some (TransactionError.InvalidTransaction t.tx)) := by
  constructor
  · unfold handle_transaction
    cases hga : get_amount t with
    | error e => simp [addClient_tx]
    | ok amount =>
      rcases hk with hk | hk <;> rw [hk] <;> simp [hdup, addClient_tx]
  · intro a hga
    unfold handle_transaction
    rw [hga]
    rcases hk with hk | hk <;> rw [hk] <;> simp [hdup, addClient_tx]

/-- Witness for C4: a Deposit by client 2 reusing the stored tx 1 with a valid
amount is rejected with InvalidTransaction 1. -/
theorem C4_duplicate_tx_rejected_witness :
    handle_transaction ⟨[(1, ⟨FP.fin 10, FP.fin 0, FP.fin 10, false⟩)], [(1, dep10)]⟩
        ⟨TransactionKind.Deposit, 2, 1, some (FP.fin 7), false⟩
      = (addClient ⟨[(1, ⟨FP.fin 10, FP.fin 0, FP.fin 10, false⟩)], [(1, dep10)]⟩ 2,
          some (TransactionError.InvalidTransaction 1)) := by
  refine (C4_duplicate_tx_rejected _ _ (Or.inl rfl) ?_).2 (FP.fin 7) ?_
  · norm_num [containsKey, lookupKey]
  · norm_num [get_amount, FP.bgt]

/-- C4 counterexample: with tx 1 already stored, the duplicate
Deposit(2, 1, -5) is rejected with InvalidAmount (-5) and not with the
duplicate-transaction kind: the amount check runs before the duplicate check. -/
theorem C4_counterexample :
    (handle_transaction (handle_transaction Accounts.new dep10).1 depDupNeg).2
        = some (TransactionError.InvalidAmount (FP.fin (-5))) ∧
    (handle_transaction (handle_transaction Accounts.new dep10).1 depDupNeg).2
        ≠ some (TransactionError.InvalidTransaction 1) := by
  norm_num [handle_transaction, addClient, containsKey, lookupKey, setKey, get_amount,
    FP.bgt, FP.beq, FP.add, Account.new, Accounts.new, dep10, depDupNeg]
  decide

/-- C5 (confirmed): when a Deposit passes the duplicate, client, lock and
amount checks but the post-addition available or total compares equal to its
pre-addition value while the amount is non-zero, handle_transaction fails
with AccountAmountTooLarge (the spec's AmountOverflow kind); the account
keeps the mutated post-addition available and total and no history entry is
stored. -/
theorem C5_overflow_guard (s : Accounts) (t : Transaction) (a : FP) (acc : Account)
    (hk : t.kind = TransactionKind.Deposit) (hga : get_amount t = Except.ok a)
    (hdup : containsKey t.tx s.tx = false)
    (hacc : lookupKey t.client s.inner = some acc)
    (hlock : acc.locked = false)
    (hguard : ((FP.beq (acc.available.add a) acc.available
        || FP.beq (acc.total.add a) acc.total)
        && !(FP.beq a (FP.fin 0))) = true) :
    handle_transaction s t =
      (⟨setKey t.client { acc with available := acc.available.add a, total := acc.total.add a }
          s.inner, s.tx⟩,
        some TransactionError.AccountAmountTooLarge) := by
  have hs : addClient s t.client = s := addClient_of_lookup hacc
  unfold handle_transaction
  rw [hs, hga, hk]
  simp [hdup, hacc, hlock, hguard]

/-- Witness for C5: depositing 5 into an account whose available and total are
already +infinity triggers the saturation guard: AccountAmountTooLarge is
returned, the account keeps the post-addition values (still +infinity) and no
history entry is stored. -/
theorem C5_overflow_guard_witness :
    (handle_transaction ⟨[(1, ⟨FP.inf true, FP.fin 0, FP.inf true, false⟩)], []⟩
        ⟨TransactionKind.Deposit, 1, 1, some (FP.fin 5), false⟩).2
      = some TransactionError.AccountAmountTooLarge ∧
    lookupKey 1 (handle_transaction ⟨[(1, ⟨FP.inf true, FP.fin 0, FP.inf true, false⟩)], []⟩
        ⟨TransactionKind.Deposit, 1, 1, some (FP.fin 5), false⟩).1.inner
      = some ⟨FP.inf true, FP.fin 0, FP.inf true, false⟩ ∧
    (handle_transaction ⟨[(1, ⟨FP.inf true, FP.fin 0, FP.inf true, false⟩)], []⟩
        ⟨TransactionKind.Deposit, 1, 1, some (FP.fin 5), false⟩).1.tx = [] := by
  have h := C5_overflow_guard ⟨[(1, ⟨FP.inf true, FP.fin 0, FP.inf true, false⟩)], []⟩
    ⟨TransactionKind.Deposit, 1, 1, some (FP.fin 5), false⟩ (FP.fin 5)
    ⟨FP.inf true, FP.fin 0, FP.inf true, false⟩
    rfl (by norm_num [get_amount, FP.bgt]) rfl rfl rfl
    (by norm_num [FP.add, FP.beq])
  rw [h]
  norm_num [setKey, lookupKey, FP.add]

/-- C6 (amended): with tx T in history (stored entry e, stored amount a) and
the incoming record carrying no amount: a Dispute moves exactly a from
available to held (total untouched) and sets e.under_dispute to true; a
Resolve of a disputed T moves exactly a back from held to available but
leaves under_dispute true — the code never clears the flag (see
counterexample); a Resolve or Chargeback of a T with under_dispute = false
fails with TxNonDisputed (the spec's NotDisputed kind) and leaves the state
unchanged. -/
theorem C6_dispute_resolve_lifecycle (s : Accounts) (t e : Transaction) (a : FP) (acc : Account)
    (hta : t.amount = none)
    (he : lookupKey t.tx s.tx = some e) (ha : get_amount e = Except.ok a)
    (hacc : lookupKey t.client s.inner = some acc) :
    (t.kind = TransactionKind.Dispute →
      handle_transaction s t =
        (⟨setKey t.client { acc with available := acc.available.sub a, held := acc.held.add a }
            s.inner,
          setKey t.tx { e with under_dispute := true } s.tx⟩, none)) ∧
    (t.kind = TransactionKind.Resolve → e.under_dispute = true →
      handle_transaction s t =
        (⟨setKey t.client { acc with held := acc.held.sub a, available := acc.available.add a }
            s.inner,
          s.tx⟩, none)) ∧
    (t.kind = TransactionKind.Resolve → e.under_dispute = false →
      handle_transaction s t = (s, some (TransactionError.TxNonDisputed t.tx))) ∧
    (t.kind = TransactionKind.Chargeback → e.under_dispute = false →
      handle_transaction s t = (s, some (TransactionError.TxNonDisputed t.tx))) := by
  have hs : addClient s t.client = s := addClient_of_lookup hacc
  have hgt0 : get_amount t = Except.ok (FP.fin 0) := by simp [get_amount, hta]
  refine ⟨?_, ?_, ?_, ?_⟩
  · intro hk
    unfold handle_transaction
    rw [hs, hk]
    simp [hgt0, he, ha, hacc]
  · intro hk hud
    unfold handle_transaction
    rw [hs, hk]
    simp [hgt0, he, ha, hacc, hud]
  · intro hk hud
    unfold handle_transaction
    rw [hs, hk]
    simp [hgt0, he, hud]
  · intro hk hud
    unfold handle_transaction
    rw [hs, hk]
    simp [hgt0, he, hud]

/-- Witness for C6: disputing the stored Deposit(1, 1, 10) moves 10 from
available to held, keeps total at 10 and marks the entry disputed. -/
theorem C6_dispute_resolve_lifecycle_witness :
    (handle_transaction ⟨[(1, ⟨FP.fin 10, FP.fin 0, FP.fin 10, false⟩)], [(1, dep10)]⟩ disp1).2
      = none ∧
    lookupKey 1 (handle_transaction ⟨[(1, ⟨FP.fin 10, FP.fin 0, FP.fin 10, false⟩)],
        [(1, dep10)]⟩ disp1).1.inner
      = some ⟨FP.fin 0, FP.fin 10, FP.fin 10, false⟩ ∧
    (lookupKey 1 (handle_transaction ⟨[(1, ⟨FP.fin 10, FP.fin 0, FP.fin 10, false⟩)],
        [(1, dep10)]⟩ disp1).1.tx).map (fun e => e.under_dispute) = some true := by
  have h := (C6_dispute_resolve_lifecycle
    ⟨[(1, ⟨FP.fin 10, FP.fin 0, FP.fin 10, false⟩)], [(1, dep10)]⟩ disp1 dep10 (FP.fin 10)
    ⟨FP.fin 10, FP.fin 0, FP.fin 10, false⟩
    rfl (by norm_num [lookupKey, disp1]) (by norm_num [get_amount, dep10, FP.bgt])
    (by norm_num [lookupKey, disp1])).1 rfl
  rw [h]
  norm_num [setKey, lookupKey, disp1, dep10, FP.sub, FP.add, FP.neg]

/-- C6 counterexample: after Deposit(1,1,10), Dispute(1,1), Resolve(1,1) — all
successful — the stored entry still has under_dispute = true (Resolve never
clears the flag), and a second Resolve of the same tx succeeds instead of
failing with the not-disputed error. -/
theorem C6_counterexample :
    (handle_transaction (handle_transaction (handle_transaction
        Accounts.new dep10).1 disp1).1 res1).2 = none ∧
    (lookupKey 1 (handle_transaction (handle_transaction (handle_transaction
        Accounts.new dep10).1 disp1).1 res1).1.tx).map (fun e => e.under_dispute) = some true ∧
    (handle_transaction (handle_transaction (handle_transaction (handle_transaction
        Accounts.new dep10).1 disp1).1 res1).1 res1).2 = none := by
  norm_num [handle_transaction, addClient, containsKey, lookupKey, setKey, get_amount,
    FP.bgt, FP.beq, FP.add, FP.sub, FP.neg, Account.new, Accounts.new, dep10, disp1, res1]

/-- C7 (amended): on an account whose locked flag is true, every Deposit or
Withdrawal fails and leaves the whole ledger unchanged; the error kind is
AccountLocked whenever the amount field validates and the tx is fresh — an
invalid amount or duplicate tx makes the earlier checks fire first with
their own kinds (see counterexample).  Dispute, Resolve and Chargeback are
not blocked by the lock: with a valid history reference they still succeed. -/
theorem C7_locked_account (s : Accounts) (t : Transaction) (acc : Account)
    (hacc : lookupKey t.client s.inner = some acc)
    (hlock : acc.locked = true) :
    ((t.kind = TransactionKind.Deposit ∨ t.kind = TransactionKind.Withdrawal) →
      (handle_transaction s t).1 = s ∧ (handle_transaction s t).2.isSome = true) ∧
    ((t.kind = TransactionKind.Deposit ∨ t.kind = TransactionKind.Withdrawal) →
      ∀ a, get_amount t = Except.ok a → containsKey t.tx s.tx = false →
        handle_transaction s t = (s, some (TransactionError.AccountLocked t.client))) ∧
    (t.kind = TransactionKind.Dispute → t.amount = none →
      ∀ e a, lookupKey t.tx s.tx = some e → get_amount e = Except.ok a →
        (handle_transaction s t).2 = none) ∧
    (t.kind = TransactionKind.Resolve → t.amount = none →
      ∀ e a, lookupKey t.tx s.tx = some e → e.under_dispute = true →
        get_amount e = Except.ok a → (handle_transaction s t).2 = none) ∧
    (t.kind = TransactionKind.Chargeback → t.amount = none →
      ∀ e a, lookupKey t.tx s.tx = some e → e.under_dispute = true →
        get_amount e = Except.ok a → (handle_transaction s t).2 = none) := by
  have hs : addClient s t.client = s := addClient_of_lookup hacc
  refine ⟨?_, ?_, ?_, ?_, ?_⟩
  · intro hk
    unfold handle_transaction
    rw [hs]
    cases hga : get_amount t with
    | error e => simp
    | ok amount =>
      rcases hk with hk | hk <;> rw [hk] <;>
        cases hdup : containsKey t.tx s.tx <;> simp [hdup, hacc, hlock]
  · intro hk a hga hdup
    unfold handle_transaction
    rw [hs, hga]
    rcases hk with hk | hk <;> rw [hk] <;> simp [hdup, hacc, hlock]
  · intro hk hta e a he ha
    have hgt0 : get_amount t = Except.ok (FP.fin 0) := by simp [get_amount, hta]
    unfold handle_transaction
    rw [hs, hk]
    simp [hgt0, he, ha, hacc]
  · intro hk hta e a he hud ha
    have hgt0 : get_amount t = Except.ok (FP.fin 0) := by simp [get_amount, hta]
    unfold handle_transaction
    rw [hs, hk]
    simp [hgt0, he, ha, hacc, hud]
  · intro hk hta e a he hud ha
    have hgt0 : get_amount t = Except.ok (FP.fin 0) := by simp [get_amount, hta]
    unfold handle_transaction
    rw [hs, hk]
    simp [hgt0, he, ha, hacc, hud]

/-- Witness for C7: a fresh, valid Deposit of 3 on a locked account fails
with AccountLocked and the state is untouched. -/
theorem C7_locked_account_witness :
    handle_transaction ⟨[(1, ⟨FP.fin 0, FP.fin 0, FP.fin 0, true⟩)], []⟩
        ⟨TransactionKind.Deposit, 1, 5, some (FP.fin 3), false⟩
      = (⟨[(1, ⟨FP.fin 0, FP.fin 0, FP.fin 0, true⟩)], []⟩,
          some (TransactionError.AccountLocked 1)) := by
  exact (C7_locked_account ⟨[(1, ⟨FP.fin 0, FP.fin 0, FP.fin 0, true⟩)], []⟩
      ⟨TransactionKind.Deposit, 1, 5, some (FP.fin 3), false⟩
      ⟨FP.fin 0, FP.fin 0, FP.fin 0, true⟩ rfl rfl).2.1
    (Or.inl rfl) (FP.fin 3) (by norm_num [get_amount, FP.bgt]) rfl

/-- C7 counterexample: on a locked account a Deposit whose amount is -1 fails
with InvalidAmount, not with the AccountLocked kind the claim promises for
every Deposit on a locked account. -/
theorem C7_counterexample :
    (handle_transaction ⟨[(1, ⟨FP.fin 0, FP.fin 0, FP.fin 0, true⟩)], []⟩
        ⟨TransactionKind.Deposit, 1, 1, some (FP.fin (-1)), false⟩).2
      = some (TransactionError.InvalidAmount (FP.fin (-1))) ∧
    (handle_transaction ⟨[(1, ⟨FP.fin 0, FP.fin 0, FP.fin 0, true⟩)], []⟩
        ⟨TransactionKind.Deposit, 1, 1, some (FP.fin (-1)), false⟩).2
      ≠ some (TransactionError.AccountLocked 1) := by
  norm_num [handle_transaction, addClient, containsKey, lookupKey, setKey, get_amount,
    FP.bgt, FP.beq, FP.add, Account.new]
  decide

/-- C8 (confirmed): Deposit(1,1,25.11), Dispute(1,1), Chargeback(1,1) from
the empty ledger all succeed and leave client 1 with available = 0, held = 0,
total = 0 and locked = true; the subsequent Deposit(1,2,25.11) then fails
with AccountLocked and changes nothing. -/
theorem C8_chargeback_scenario :
    (handle_transaction Accounts.new dep25).2 = none ∧
    (handle_transaction (handle_transaction Accounts.new dep25).1 disp1).2 = none ∧
    (handle_transaction (handle_transaction (handle_transaction
        Accounts.new dep25).1 disp1).1 cb1).2 = none ∧
    lookupKey 1 (handle_transaction (handle_transaction (handle_transaction
        Accounts.new dep25).1 disp1).1 cb1).1.inner
      = some ⟨FP.fin 0, FP.fin 0, FP.fin 0, true⟩ ∧
    handle_transaction (handle_transaction (handle_transaction (handle_transaction
        Accounts.new dep25).1 disp1).1 cb1).1 dep25b
      = ((handle_transaction (handle_transaction (handle_transaction
          Accounts.new dep25).1 disp1).1 cb1).1,
         some (TransactionError.AccountLocked 1)) := by
  norm_num [handle_transaction, addClient, containsKey, lookupKey, setKey, get_amount,
    FP.bgt, FP.beq, FP.add, FP.sub, FP.neg, Account.new, Accounts.new,
    dep25, dep25b, disp1, cb1]

/-- C9 (confirmed): a Dispute whose tx is in history succeeds without any
check of the stored entry's under_dispute flag: the stored amount is
subtracted from available and added to held (again, if already disputed) and
the flag is set to true (so it stays true).  The witness disputes an
already-disputed deposit a second time and drives available negative. -/
theorem C9_dispute_ignores_flag (s : Accounts) (t e : Transaction) (a : FP) (acc : Account)
    (hk : t.kind = TransactionKind.Dispute) (hta : t.amount = none)
    (he : lookupKey t.tx s.tx = some e) (ha : get_amount e = Except.ok a)
    (hacc : lookupKey t.client s.inner = some acc) :
    handle_transaction s t =
      (⟨setKey t.client { acc with available := acc.available.sub a, held := acc.held.add a }
          s.inner,
        setKey t.tx { e with under_dispute := true } s.tx⟩, none) := by
  have hs : addClient s t.client = s := addClient_of_lookup hacc
  have hgt0 : get_amount t = Except.ok (FP.fin 0) := by simp [get_amount, hta]
  unfold handle_transaction
  rw [hs, hk]
  simp [hgt0, he, ha, hacc]

/-- Witness for C9: disputing the already-disputed stored Deposit(1, 1, 10) a
second time succeeds, leaves the flag true and makes available negative
(0 - 10 = -10) while held doubles to 20. -/
theorem C9_dispute_ignores_flag_witness :
    (handle_transaction ⟨[(1, ⟨FP.fin 0, FP.fin 10, FP.fin 10, false⟩)], [(1, dep10d)]⟩
        disp1).2 = none ∧
    lookupKey 1 (handle_transaction ⟨[(1, ⟨FP.fin 0, FP.fin 10, FP.fin 10, false⟩)],
        [(1, dep10d)]⟩ disp1).1.inner
      = some ⟨FP.fin (-10), FP.fin 20, FP.fin 10, false⟩ ∧
    (lookupKey 1 (handle_transaction ⟨[(1, ⟨FP.fin 0, FP.fin 10, FP.fin 10, false⟩)],
        [(1, dep10d)]⟩ disp1).1.tx).map (fun e => e.under_dispute) = some true := by
  have h := C9_dispute_ignores_flag
    ⟨[(1, ⟨FP.fin 0, FP.fin 10, FP.fin 10, false⟩)], [(1, dep10d)]⟩ disp1 dep10d
    (FP.fin 10) ⟨FP.fin 0, FP.fin 10, FP.fin 10, false⟩
    rfl rfl (by norm_num [lookupKey, disp1]) (by norm_num [get_amount, dep10d, FP.bgt])
    (by norm_num [lookupKey, disp1])
  rw [h]
  norm_num [setKey, lookupKey, disp1, dep10d, FP.sub, FP.add, FP.neg]

/-- C10 (confirmed): Dispute, Resolve and Chargeback never compare the
incoming record's client with the stored entry's client: the funds move
(and, for Chargeback, the lock) is applied to the account of the incoming
record's client — lazily created as a zero account if absent — while the
stored entry's client's account is untouched by a Dispute from another
client. -/
theorem C10_client_not_checked (s : Accounts) (t e : Transaction) (a : FP) (acc : Account)
    (hta : t.amount = none)
    (he : lookupKey t.tx s.tx = some e) (ha : get_amount e = Except.ok a)
    (hne : e.client ≠ t.client)
    (hacc : lookupKey t.client (addClient s t.client).inner = some acc) :
    (lookupKey t.client s.inner = none → acc = Account.new) ∧
    (t.kind = TransactionKind.Dispute →
      handle_transaction s t =
        (⟨setKey t.client
            { acc with available := acc.available.sub a, held := acc.held.add a }
            (addClient s t.client).inner,
          setKey t.tx { e with under_dispute := true } s.tx⟩, none) ∧
      lookupKey e.client (handle_transaction s t).1.inner = lookupKey e.client s.inner) ∧
    (t.kind = TransactionKind.Resolve → e.under_dispute = true →
      handle_transaction s t =
        (⟨setKey t.client
            { acc with held := acc.held.sub a, available := acc.available.add a }
            (addClient s t.client).inner,
          s.tx⟩, none)) ∧
    (t.kind = TransactionKind.Chargeback → e.under_dispute = true →
      handle_transaction s t =
        (⟨setKey t.client
            { acc with held := acc.held.sub a, total := acc.total.sub a, locked := true }
            (addClient s t.client).inner,
          s.tx⟩, none)) := by
  have hgt0 : get_amount t = Except.ok (FP.fin 0) := by simp [get_amount, hta]
  have htx : (addClient s t.client).tx = s.tx := addClient_tx s t.client
  refine ⟨?_, ?_, ?_, ?_⟩
  · intro hnone
    have h := lookup_addClient_self s t.client
    rw [hacc, hnone] at h
    simp at h
    exact h
  · intro hk
    constructor
    · unfold handle_transaction
      rw [hk]
      simp [hgt0, htx, he, ha, hacc]
    · unfold handle_transaction
      rw [hk]
      simp [hgt0, htx, he, ha, hacc]
      rw [lookupKey_setKey]
      simp [hne, lookup_addClient_ne s t.client e.client hne]
  · intro hk hud
    unfold handle_transaction
    rw [hk]
    simp [hgt0, htx, he, ha, hacc, hud]
  · intro hk hud
    unfold handle_transaction
    rw [hk]
    simp [hgt0, htx, he, ha, hacc, hud]

/-- Witness for C10: a Dispute by client 2 of the deposit stored for client 1
succeeds, creates client 2's account and moves the stored 10 there
(available -10, held 10, total 0) while client 1's account is untouched. -/
theorem C10_client_not_checked_witness :
    (handle_transaction ⟨[(1, ⟨FP.fin 10, FP.fin 0, FP.fin 10, false⟩)], [(1, dep10)]⟩
        disp2).2 = none ∧
    lookupKey 2 (handle_transaction ⟨[(1, ⟨FP.fin 10, FP.fin 0, FP.fin 10, false⟩)],
        [(1, dep10)]⟩ disp2).1.inner
      = some ⟨FP.fin (-10), FP.fin 10, FP.fin 0, false⟩ ∧
    lookupKey 1 (handle_transaction ⟨[(1, ⟨FP.fin 10, FP.fin 0, FP.fin 10, false⟩)],
        [(1, dep10)]⟩ disp2).1.inner
      = some ⟨FP.fin 10, FP.fin 0, FP.fin 10, false⟩ := by
  have h := (C10_client_not_checked
    ⟨[(1, ⟨FP.fin 10, FP.fin 0, FP.fin 10, false⟩)], [(1, dep10)]⟩ disp2 dep10
    (FP.fin 10) Account.new
    rfl (by norm_num [lookupKey, disp2]) (by norm_num [get_amount, dep10, FP.bgt])
    (by norm_num [dep10, disp2])
    (by norm_num [addClient, containsKey, lookupKey, setKey, disp2])).2.1 rfl
  rw [h.1]
  norm_num [setKey, lookupKey, addClient, containsKey, disp2, dep10, Account.new,
    FP.sub, FP.add, FP.neg]

end ToyPayment
